import Mathlib

/-!
Verification of the bonding backend's gamification core against its
specification.  The definitions below are a shallow embedding of the
business logic in `bondingapp/models.py`, `bondingapp/core/serializers.py`
and `bondingapp/core/views.py`: dates are modelled as integer day numbers,
the ORM rows touched by the verified operations as Lean structures, and
each HTTP operation as a pure function from state to `Except`-wrapped
state (an `Except.error` result corresponds to a request that is rejected
before any database write, so the error branch leaving the state unchanged
mirrors the code, whose save calls all occur after its guard checks).
-/

/-- Status choices of `ActivitySession` (models.py `STATUS_CHOICES`). -/
inductive SessionStatus
  | started
  | in_progress
  | completed
  | skipped
  | abandoned
deriving DecidableEq, Repr

/-- The fields of `Activity` consulted by the completion path. -/
structure ActivityT where
  points_reward : Int
  coins_reward : Int
deriving DecidableEq, Repr

/-- An `ActivitySession` row: primary key, owning user id, activity, status. -/
structure SessionT where
  sid : Nat
  owner : Nat
  activity : ActivityT
  status : SessionStatus
deriving DecidableEq, Repr

/-- An `ActivityCompletion` row (the fields the claims speak about). -/
structure CompletionT where
  session_sid : Nat
  points_earned : Int
  coins_earned : Int
deriving DecidableEq, Repr

/-- A `CoinTransaction` ledger row; `created_day` models `created_at`'s date. -/
structure TxnT where
  transaction_type : String
  amount : Int
  balance_after : Int
  created_day : Int
deriving DecidableEq, Repr

/-- The `Streak` model's mutable fields (models.py). -/
structure StreakT where
  current_streak : Int
  longest_streak : Int
  last_activity_date : Option Int
  total_active_days : Int
  streak_start_date : Option Int
deriving DecidableEq, Repr

/-- Default field values of a freshly created `Streak` row. -/
def StreakT.new : StreakT := ⟨0, 0, none, 0, none⟩

/-- `Streak.is_active` (models.py lines 349-354): true when a last activity
date exists and lies at most one day before `today`. -/
def StreakT.is_active (s : StreakT) (today : Int) : Bool :=
  match s.last_activity_date with
  | none => false
  | some d => today - d ≤ 1

/-- `Streak.update_streak` (models.py lines 356-383), with `today` passed
explicitly in place of `timezone.now().date()`. -/
def StreakT.update_streak (s : StreakT) (today : Int) : StreakT :=
  match s.last_activity_date with
  | none =>
      ⟨1, 1, some today, 1, some today⟩
  | some d =>
      if d = today then
        s
      else if today - d = 1 then
        { s with
          current_streak := s.current_streak + 1
          longest_streak := max s.longest_streak (s.current_streak + 1)
          last_activity_date := some today
          total_active_days := s.total_active_days + 1 }
      else
        { s with
          current_streak := 1
          last_activity_date := some today
          streak_start_date := some today
          total_active_days := s.total_active_days + 1 }

/-- The level computation inlined in `ActivityCompletionSerializer.create`
(serializers.py lines 454-461). -/
def levelFor (total_points : Int) : Int :=
  if total_points ≥ 3001 then 4
  else if total_points ≥ 1501 then 3
  else if total_points ≥ 501 then 2
  else 1

/-- The `level_thresholds` table of `UserSerializer.get_level_progress`
(serializers.py lines 96-103); `none` as upper bound stands for infinity,
and levels outside 1-4 fall back to `(0, 500)` as `dict.get` does. -/
def levelThreshold (level : Int) : Int × Option Int :=
  if level = 1 then (0, some 500)
  else if level = 2 then (501, some 1500)
  else if level = 3 then (1501, some 3000)
  else if level = 4 then (3001, none)
  else (0, some 500)

/-- Round a rational to two decimal places (Python's `round(x, 2)`; the
progress percentages produced by the thresholds never fall on a tie, so
the rounding mode is immaterial there). -/
def round2 (q : ℚ) : ℚ := (round (q * 100) : ℤ) / 100

/-- Result shape of `UserSerializer.get_level_progress`. -/
structure LevelProgressT where
  current_level : Int
  next_level : Option Int
  progress_percentage : ℚ
  points_needed : Int
deriving DecidableEq, Repr

/-- `UserSerializer.get_level_progress` (serializers.py lines 94-121) as a
function of the user's stored `current_level` and `total_points`. -/
def get_level_progress (current_level : Int) (total_points : Int) : LevelProgressT :=
  match levelThreshold current_level with
  | (_, none) =>
      ⟨current_level, none, 100, 0⟩
  | (lo, some hi) =>
      let points_in_level : ℚ := ((total_points - lo : Int) : ℚ)
      let level_range : ℚ := ((hi - lo : Int) : ℚ)
      ⟨current_level, some (current_level + 1),
        round2 (points_in_level / level_range * 100), hi - total_points⟩

/-- Lower bound of the level bracket a point total falls in, read off the
spec's threshold table (level 1: [0,500], 2: [501,1500], 3: [1501,3000],
4: [3001,inf)). -/
def specLevelMin (p : Int) : Int :=
  if p ≥ 3001 then 3001 else if p ≥ 1501 then 1501 else if p ≥ 501 then 501 else 0

/-- Upper bound of the level bracket a point total falls in (spec table);
`none` for the unbounded top level. -/
def specLevelMax (p : Int) : Option Int :=
  if p ≥ 3001 then none else if p ≥ 1501 then some 3000
  else if p ≥ 501 then some 1500 else some 500

/-- The spec's progress formula, stated from the spec's words: within a
level, progress is (points - levelMin) / (levelMax - levelMin) x 100
rounded to 2 decimals, and the top level reports 100. -/
def progressSpec (p : Int) : ℚ :=
  match specLevelMax p with
  | none => 100
  | some hi =>
      round2 (((p - specLevelMin p : Int) : ℚ) / ((hi - specLevelMin p : Int) : ℚ) * 100)

/-- `User.calculate_bond_score` (models.py lines 78-96) as a function of
its inputs: whether a partner is linked, the two partners' 30-day
completion counts, and the current streak from `get_current_streak`. -/
def calculate_bond_score (has_partner : Bool)
    (user_completions partner_completions streak : Nat) : Nat :=
  if !has_partner then 0
  else
    let base_score := min ((user_completions + partner_completions) * 2) 60
    let streak_score := min (streak * 2) 30
    let consistency_score :=
      if user_completions ≥ 20 ∧ partner_completions ≥ 20 then 10 else 5
    min (base_score + streak_score + consistency_score) 100

/-- The bond-score formula written from the spec's words (section 4.3):
activityScore, streakScore and consistencyScore summed and capped at 100,
zero without a partner. -/
def bondScoreSpec (has_partner : Bool)
    (user_completions partner_completions streak : Nat) : Nat :=
  if !has_partner then 0
  else
    let activityScore := min ((user_completions + partner_completions) * 2) 60
    let streakScore := min (streak * 2) 30
    let consistencyScore :=
      if user_completions ≥ 20 ∧ partner_completions ≥ 20 then 10 else 5
    min (activityScore + streakScore + consistencyScore) 100

/-- Errors raised by the modelled request handlers before any state write. -/
inductive ReqErr
  | invalidSession
  | validation
  | insufficientCoins
  | alreadyClaimed
  | skipLimitReached
deriving DecidableEq, Repr

/-- The per-user state touched by the coin-affecting operations: the
user's `ActivitySession` rows, `ActivityCompletion` rows, counters on the
`User` row, the lazily created `Streak` row, and the coin ledger in
creation order. -/
structure AppState where
  sessions : List SessionT
  completions : List CompletionT
  total_points : Int
  coins : Int
  current_level : Int
  streak : Option StreakT
  txns : List TxnT
deriving DecidableEq, Repr

/-- `ActivityCompletionSerializer.create` (serializers.py lines 421-480):
look the session up by id and requesting user (a missing row raises a
validation error before any write), copy the activity's rewards onto the
completion, mark the session completed, add the rewards to the user and
recompute the level, update the streak (creating the row if absent), and
append one `earned_activity` ledger row with the new balance. -/
def completeActivity (st : AppState) (requester : Nat) (session_id : Nat)
    (today : Int) : Except ReqErr AppState :=
  match st.sessions.find? (fun s => s.sid = session_id ∧ s.owner = requester) with
  | none => .error .invalidSession
  | some session =>
      let completion : CompletionT :=
        ⟨session.sid, session.activity.points_reward, session.activity.coins_reward⟩
      let sessions' := st.sessions.map fun s =>
        if s.sid = session.sid then { s with status := .completed } else s
      let points' := st.total_points + completion.points_earned
      let coins' := st.coins + completion.coins_earned
      let streak' := (st.streak.getD StreakT.new).update_streak today
      .ok
        { sessions := sessions'
          completions := st.completions ++ [completion]
          total_points := points'
          coins := coins'
          current_level := levelFor points'
          streak := some streak'
          txns := st.txns ++ [⟨"earned_activity", completion.coins_earned, coins', today⟩] }

/-- `CoinSpendSerializer` validation plus `RewardViewSet.spend_coins`
(serializers.py lines 648-664, views.py lines 959-1001): the serializer
rejects a cost below 1 and an insufficient balance before the view
deducts the cost and appends one negative ledger row. -/
def spend_coins (st : AppState) (item_type : String) (cost : Int)
    (today : Int) : Except ReqErr AppState :=
  if cost < 1 then .error .validation
  else if st.coins < cost then .error .insufficientCoins
  else
    let coins' := st.coins - cost
    .ok
      { st with
        coins := coins'
        txns := st.txns ++ [⟨"spent_" ++ item_type, -cost, coins', today⟩] }

/-- `RewardViewSet.claim_daily_bonus` (views.py lines 1042-1084): reject
when an `earned_daily_bonus` transaction already exists for today,
otherwise add 5 coins and append the bonus ledger row. -/
def claim_daily_bonus (st : AppState) (today : Int) : Except ReqErr AppState :=
  if st.txns.any (fun t =>
      t.transaction_type = "earned_daily_bonus" ∧ t.created_day = today) then
    .error .alreadyClaimed
  else
    let coins' := st.coins + 5
    .ok
      { st with
        coins := coins'
        txns := st.txns ++ [⟨"earned_daily_bonus", 5, coins', today⟩] }

/-- One of the three coin-affecting operations of the API. -/
inductive CoinOp
  | complete (session_id : Nat) (today : Int)
  | spend (item_type : String) (cost : Int) (today : Int)
  | bonus (today : Int)
deriving DecidableEq, Repr

/-- Run one coin-affecting request; a rejected request leaves the state
unchanged (all of the code's guard checks precede its first write). -/
def stepCoinOp (requester : Nat) (st : AppState) (op : CoinOp) : AppState :=
  match op with
  | .complete sid today =>
      match completeActivity st requester sid today with
      | .ok st' => st'
      | .error _ => st
  | .spend item cost today =>
      match spend_coins st item cost today with
      | .ok st' => st'
      | .error _ => st
  | .bonus today =>
      match claim_daily_bonus st today with
      | .ok st' => st'
      | .error _ => st

/-- Initial state of a fresh user: coin balance 0 (the `User.coins` field
default), an empty ledger, and arbitrary pre-existing session rows. -/
def initAppState (sessions : List SessionT) : AppState :=
  ⟨sessions, [], 0, 0, 1, none, []⟩

/-- Sum of the `amount` fields of a ledger in creation order. -/
def sumAmounts (txns : List TxnT) : Int := (txns.map (fun t => t.amount)).sum

/-- Check that, replaying `txns` starting from balance `b`, each row's
stored `balance_after` equals the running prefix sum at that row. -/
def runningBalances (b : Int) : List TxnT → Bool
  | [] => true
  | t :: ts => (t.balance_after = b + t.amount : Bool) && runningBalances (b + t.amount) ts

/-- The ledger invariant of the spec: amounts sum to the current balance
and every row's `balance_after` is the running prefix sum from 0. -/
def ledgerOk (st : AppState) : Prop :=
  sumAmounts st.txns = st.coins ∧ runningBalances 0 st.txns = true

/-- A `SkipLimit` row for one (user, date) pair. -/
structure SkipLimitT where
  skips_used : Int
  max_skips_per_day : Int
deriving DecidableEq, Repr

/-- `SkipLimit.can_skip` (models.py lines 567-569). -/
def SkipLimitT.can_skip (s : SkipLimitT) : Bool :=
  s.skips_used < s.max_skips_per_day

/-- Default field values of a `SkipLimit` row created by `get_or_create`
in `ActivityViewSet.skip`: no skips used, daily maximum 2. -/
def SkipLimitT.new : SkipLimitT := ⟨0, 2⟩

/-- The skip-counter part of `ActivityViewSet.skip` (views.py lines
662-700): reject with 429 when the cap is reached, else increment. -/
def skipActivity (s : SkipLimitT) : Except ReqErr SkipLimitT :=
  if !s.can_skip then .error .skipLimitReached
  else .ok { s with skips_used := s.skips_used + 1 }

/-- Run one skip request sequentially; a rejected request leaves the
counter unchanged. -/
def skipStep (s : SkipLimitT) : SkipLimitT :=
  match skipActivity s with
  | .ok s' => s'
  | .error _ => s

/-- The `User` fields consulted by `UserViewSet.partner_link`. -/
structure LinkUser where
  uid : Nat
  partner : Option Nat
  partner_invitation_code : Option String
deriving DecidableEq, Repr

/-- Errors of the partner-link endpoint. -/
inductive LinkErr
  | invalidCode
  | noRequester
  | alreadyHasPartner
  | codeNotFound
  | selfLink
  | partnerTaken
deriving DecidableEq, Repr

/-- Python's `str.upper()` on the ASCII codes at play, mapping
`Char.toUpper` over the string's characters. -/
def upperStr (s : String) : String := ⟨s.data.map Char.toUpper⟩

/-- The per-row write performed by a successful link: the requester's row
gets `partner := the code holder`, the code holder's row gets
`partner := the requester`, and every other row is untouched. -/
def linkUpdate (rid pid : Nat) (u : LinkUser) : LinkUser :=
  if u.uid = rid then { u with partner := some pid }
  else if u.uid = pid then { u with partner := some rid }
  else u

/-- `PartnerLinkSerializer.validate_invitation_code` plus
`UserViewSet.partner_link` (serializers.py lines 181-190, views.py lines
289-352): the serializer first requires some user to hold the submitted
code verbatim and upper-cases it; the view then rejects when the
requester already has a partner, the upper-cased code matches no user,
the match is the requester, or the match already has a partner, and
otherwise writes the mutual link onto both user rows.  (`noRequester`
guards the unreachable case of an unauthenticated request: `request.user`
always denotes an existing row.) -/
def partner_link (users : List LinkUser) (requester_id : Nat)
    (code : String) : Except LinkErr (List LinkUser) :=
  if !(users.any fun u => u.partner_invitation_code = some code) then
    .error .invalidCode
  else
    let code' := upperStr code
    match users.find? (fun u => u.uid = requester_id) with
    | none => .error .noRequester
    | some requester =>
        if requester.partner.isSome then .error .alreadyHasPartner
        else
          match users.find? (fun u => u.partner_invitation_code = some code') with
          | none => .error .codeNotFound
          | some p =>
              if p.uid = requester_id then .error .selfLink
              else if p.partner.isSome then .error .partnerTaken
              else .ok (users.map (linkUpdate requester_id p.uid))

/-! ## Helper lemmas -/

theorem sumAmounts_append (ts : List TxnT) (t : TxnT) :
    sumAmounts (ts ++ [t]) = sumAmounts ts + t.amount := by
  simp [sumAmounts]

/-! ## Claim theorems -/

/-- The streak state used to refute the unconditional invariant-preservation
sentence of claim C3: longest and current are both 0 while a last activity
date is present. -/
def c3CxStreak : StreakT := ⟨0, 0, some 0, 0, some 0⟩

/-- C3 counterexample: on the state with current_streak = longest_streak = 0
and last activity on day 0, the invariant longest >= current holds before
`update_streak` on day 5 but not after it (the gap branch resets
current_streak to 1 while longest_streak stays 0). -/
theorem streak_invariant_not_preserved_cx :
    c3CxStreak.current_streak ≤ c3CxStreak.longest_streak ∧
    ¬ (c3CxStreak.update_streak 5).current_streak ≤
        (c3CxStreak.update_streak 5).longest_streak := by
  refine ⟨le_refl 0, ?_⟩
  decide

/-- C3 (amended): `update_streak` starts a streak of 1 on the first ever
activity; is a no-op (and idempotent) when the last activity is today;
on a gap of exactly one day increments current, takes the max into
longest, and increments total active days; on any other gap resets
current to 1 (not 0), resets the start date, still increments total
active days, and leaves longest unchanged; and it preserves
longest >= current provided longest >= 1 whenever a prior activity date
exists (the proviso the counterexample forces). -/
theorem spec_C3_update_streak (s : StreakT) (today : Int) :
    (s.last_activity_date = none →
      s.update_streak today = ⟨1, 1, some today, 1, some today⟩) ∧
    (s.last_activity_date = some today → s.update_streak today = s) ∧
    ((s.update_streak today).update_streak today = s.update_streak today) ∧
    (∀ d, s.last_activity_date = some d → today - d = 1 →
      s.update_streak today =
        ⟨s.current_streak + 1, max s.longest_streak (s.current_streak + 1),
          some today, s.total_active_days + 1, s.streak_start_date⟩) ∧
    (∀ d, s.last_activity_date = some d → 2 ≤ today - d →
      s.update_streak today =
        ⟨1, s.longest_streak, some today, s.total_active_days + 1, some today⟩) ∧
    ((s.last_activity_date = none ∨ 1 ≤ s.longest_streak) →
      s.current_streak ≤ s.longest_streak →
      (s.update_streak today).current_streak ≤ (s.update_streak today).longest_streak) := by
  obtain ⟨cur, lon, last, tad, ssd⟩ := s
  refine ⟨?_, ?_, ?_, ?_, ?_, ?_⟩
  · intro h
    simp only at h
    subst h
    rfl
  · intro h
    simp only at h
    subst h
    simp [StreakT.update_streak]
  · match last with
    | none =>
        simp [StreakT.update_streak]
    | some d =>
        by_cases hd : d = today
        · subst hd
          simp [StreakT.update_streak]
        · by_cases hg : today - d = 1
          · simp [StreakT.update_streak, hd, hg]
          · simp [StreakT.update_streak, hd, hg]
  · intro d hd hg
    simp only at hd
    subst hd
    have hne : d ≠ today := by omega
    simp [StreakT.update_streak, hne, hg]
  · intro d hd hg
    simp only at hd
    subst hd
    have hne : d ≠ today := by omega
    have hg1 : ¬ today - d = 1 := by omega
    simp [StreakT.update_streak, hne, hg1]
  · intro hpre hle
    match last with
    | none =>
        simp [StreakT.update_streak]
    | some d =>
        have hlon : 1 ≤ lon := by
          rcases hpre with h | h
          · simp at h
          · exact h
        by_cases hd : d = today
        · subst hd
          simpa [StreakT.update_streak] using hle
        · by_cases hg : today - d = 1
          · simp [StreakT.update_streak, hd, hg]
          · simp [StreakT.update_streak, hd, hg]
            omega

/-- Witness for C3: a one-day gap on the concrete state
(current 2, longest 3, last day 4, 6 active days) evaluated at day 5. -/
theorem spec_C3_update_streak_witness :
    StreakT.update_streak ⟨2, 3, some 4, 6, some 2⟩ 5 =
      ⟨3, 3, some 5, 7, some 2⟩ := by
  have h := (spec_C3_update_streak ⟨2, 3, some 4, 6, some 2⟩ 5).2.2.2.1 4 rfl (by decide)
  simpa using h

/-- C9: `is_active` is false when no activity was ever recorded, and with a
last activity date `d` it is true exactly when `today - d <= 1`.  (The
embedding is a pure function of the streak row, mirroring the source
method, which reads the row and performs no write.) -/
theorem spec_C9_is_active (s : StreakT) (today : Int) :
    (s.last_activity_date = none → s.is_active today = false) ∧
    (∀ d, s.last_activity_date = some d →
      (s.is_active today = true ↔ today - d ≤ 1)) := by
  obtain ⟨cur, lon, last, tad, ssd⟩ := s
  constructor
  · intro h
    simp only at h
    subst h
    rfl
  · intro d hd
    simp only at hd
    subst hd
    simp [StreakT.is_active]

/-- Witness for C9: a streak last fed on day 4 is still active on day 5. -/
theorem spec_C9_is_active_witness :
    StreakT.is_active ⟨1, 1, some 4, 1, some 4⟩ 5 = true :=
  ((spec_C9_is_active ⟨1, 1, some 4, 1, some 4⟩ 5).2 4 rfl).mpr (by decide)

/-- C5: the bond score is 0 without a partner, never exceeds 100 (and is
a natural number, hence at least 0), and agrees with the spec's
activity/streak/consistency formula.  Completion counts and the streak
are natural numbers, as the counts come from row counting and the streak
from `get_current_streak`, which returns 0 or a tracked streak. -/
theorem spec_C5_bond_score (has_partner : Bool)
    (user_completions partner_completions streak : Nat) :
    (has_partner = false →
      calculate_bond_score has_partner user_completions partner_completions streak = 0) ∧
    0 ≤ calculate_bond_score has_partner user_completions partner_completions streak ∧
    calculate_bond_score has_partner user_completions partner_completions streak ≤ 100 ∧
    calculate_bond_score has_partner user_completions partner_completions streak =
      bondScoreSpec has_partner user_completions partner_completions streak := by
  refine ⟨?_, Nat.zero_le _, ?_, rfl⟩
  · intro h
    subst h
    rfl
  · cases has_partner with
    | false => simp [calculate_bond_score]
    | true =>
        simp only [calculate_bond_score]
        exact min_le_right _ 100

/-- Witness for C5: with no partner the score is 0 at concrete counts. -/
theorem spec_C5_bond_score_witness :
    calculate_bond_score false 25 25 9 = 0 :=
  (spec_C5_bond_score false 25 25 9).1 rfl

/-- C8: a skip request is rejected (leaving the state untouched, as the
error is raised before the counter write) exactly when the cap is
reached, otherwise the counter increments by exactly 1; iterating the
endpoint sequentially keeps `skips_used` at or below the cap whenever it
starts there, in particular forever from the freshly created row. -/
theorem spec_C8_skip_limit (s : SkipLimitT) :
    (s.can_skip = false → skipActivity s = Except.error ReqErr.skipLimitReached) ∧
    (s.can_skip = true →
      skipActivity s = Except.ok { s with skips_used := s.skips_used + 1 }) ∧
    (s.skips_used ≤ s.max_skips_per_day →
      ∀ n : Nat, (skipStep^[n] s).skips_used ≤ (skipStep^[n] s).max_skips_per_day) ∧
    (∀ n : Nat,
      (skipStep^[n] SkipLimitT.new).skips_used ≤
        (skipStep^[n] SkipLimitT.new).max_skips_per_day) := by
  have hstep : ∀ t : SkipLimitT, t.skips_used ≤ t.max_skips_per_day →
      (skipStep t).skips_used ≤ (skipStep t).max_skips_per_day := by
    intro t ht
    by_cases h : t.can_skip
    · have hlt : t.skips_used < t.max_skips_per_day := by
        simpa [SkipLimitT.can_skip] using h
      simp [skipStep, skipActivity, h]
      omega
    · simp [skipStep, skipActivity, h]
      exact ht
  have hiter : ∀ (t : SkipLimitT), t.skips_used ≤ t.max_skips_per_day →
      ∀ n : Nat, (skipStep^[n] t).skips_used ≤ (skipStep^[n] t).max_skips_per_day := by
    intro t ht n
    induction n with
    | zero => simpa using ht
    | succ k ih =>
        rw [Function.iterate_succ_apply']
        exact hstep _ ih
  refine ⟨?_, ?_, hiter s, hiter SkipLimitT.new (by decide)⟩
  · intro h
    simp [skipActivity, h]
  · intro h
    simp [skipActivity, h]

/-- Witness for C8: the first skip of the day moves the counter to 1. -/
theorem spec_C8_skip_limit_witness :
    skipActivity ⟨0, 2⟩ = Except.ok ⟨1, 2⟩ :=
  (spec_C8_skip_limit ⟨0, 2⟩).2.1 (by decide)

/-- C4: after a completion the stored level is `levelFor` of the new point
total; this theorem checks `levelFor` against the spec's bracket table,
its monotonicity, and that `get_level_progress` evaluated at the level the
completion path assigns reports exactly the spec's progress formula (100%
and zero points-to-next at the top level), including the spec's 510-point
example (level 2, 0.9%). -/
theorem spec_C4_levels (p : Int) (hp : 0 ≤ p) :
    (p ≤ 500 → levelFor p = 1) ∧
    (501 ≤ p → p ≤ 1500 → levelFor p = 2) ∧
    (1501 ≤ p → p ≤ 3000 → levelFor p = 3) ∧
    (3001 ≤ p → levelFor p = 4) ∧
    (∀ q : Int, p ≤ q → levelFor p ≤ levelFor q) ∧
    ((get_level_progress (levelFor p) p).progress_percentage = progressSpec p) ∧
    (3001 ≤ p →
      (get_level_progress (levelFor p) p).progress_percentage = 100 ∧
      (get_level_progress (levelFor p) p).points_needed = 0) ∧
    (levelFor 510 = 2 ∧ (get_level_progress 2 510).progress_percentage = 9 / 10) := by
  refine ⟨?_, ?_, ?_, ?_, ?_, ?_, ?_, ?_, ?_⟩
  · intro h
    simp only [levelFor]
    split_ifs <;> omega
  · intro h1 h2
    simp only [levelFor]
    split_ifs <;> omega
  · intro h1 h2
    simp only [levelFor]
    split_ifs <;> omega
  · intro h
    simp only [levelFor]
    split_ifs <;> omega
  · intro q hq
    simp only [levelFor]
    split_ifs <;> omega
  · by_cases h4 : p ≥ 3001
    · simp [levelFor, h4, get_level_progress, levelThreshold, progressSpec, specLevelMax]
    · by_cases h3 : p ≥ 1501
      · simp [levelFor, h4, h3, get_level_progress, levelThreshold, progressSpec,
          specLevelMax, specLevelMin]
      · by_cases h2 : p ≥ 501
        · simp [levelFor, h4, h3, h2, get_level_progress, levelThreshold, progressSpec,
            specLevelMax, specLevelMin]
        · simp [levelFor, h4, h3, h2, get_level_progress, levelThreshold, progressSpec,
            specLevelMax, specLevelMin]
  · intro h
    have h4 : p ≥ 3001 := h
    constructor
    · simp [levelFor, h4, get_level_progress, levelThreshold]
    · simp [levelFor, h4, get_level_progress, levelThreshold]
  · decide
  · norm_num [get_level_progress, levelThreshold, round2, round_eq]

/-- Witness for C4: 510 points sit in level 2 with 0.9% progress. -/
theorem spec_C4_levels_witness :
    levelFor 510 = 2 ∧ (get_level_progress 2 510).progress_percentage = 9 / 10 :=
  (spec_C4_levels 510 (by decide)).2.2.2.2.2.2.2

theorem runningBalances_cons (b : Int) (t : TxnT) (ts : List TxnT) :
    runningBalances b (t :: ts) = true ↔
      (t.balance_after = b + t.amount ∧ runningBalances (b + t.amount) ts = true) := by
  simp [runningBalances]

theorem sumAmounts_cons (t : TxnT) (ts : List TxnT) :
    sumAmounts (t :: ts) = t.amount + sumAmounts ts := by
  simp [sumAmounts]

theorem runningBalances_append (b : Int) (ts : List TxnT) (t : TxnT) :
    runningBalances b (ts ++ [t]) = true ↔
      (runningBalances b ts = true ∧ t.balance_after = b + sumAmounts ts + t.amount) := by
  induction ts generalizing b with
  | nil =>
      simp [runningBalances, sumAmounts]
  | cons hd tl ih =>
      rw [List.cons_append, runningBalances_cons, runningBalances_cons,
        ih (b + hd.amount), sumAmounts_cons]
      constructor
      · rintro ⟨h1, h2, h3⟩
        exact ⟨⟨h1, h2⟩, by omega⟩
      · rintro ⟨⟨h1, h2⟩, h3⟩
        exact ⟨h1, h2, by omega⟩

theorem ledgerOk_extend (txns : List TxnT) (coins a b : Int) (ty : String) (day : Int)
    (h1 : sumAmounts txns = coins) (h2 : runningBalances 0 txns = true)
    (hb : b = coins + a) :
    sumAmounts (txns ++ [⟨ty, a, b, day⟩]) = b ∧
    runningBalances 0 (txns ++ [⟨ty, a, b, day⟩]) = true := by
  constructor
  · rw [sumAmounts_append, h1, hb]
  · exact (runningBalances_append 0 txns _).mpr ⟨h2, by simp [h1, hb]⟩

theorem ledgerOk_step (r : Nat) (st : AppState) (op : CoinOp) (h : ledgerOk st) :
    ledgerOk (stepCoinOp r st op) := by
  obtain ⟨h1, h2⟩ := h
  cases op with
  | complete sid today =>
      simp only [stepCoinOp, completeActivity]
      cases hfind : st.sessions.find? (fun s => s.sid = sid ∧ s.owner = r) with
      | none => exact ⟨h1, h2⟩
      | some sess =>
          exact ledgerOk_extend st.txns st.coins sess.activity.coins_reward
            (st.coins + sess.activity.coins_reward) "earned_activity" today h1 h2 rfl
  | spend item cost today =>
      simp only [stepCoinOp, spend_coins]
      by_cases hc1 : cost < 1
      · simp only [hc1, if_true]
        exact ⟨h1, h2⟩
      · simp only [hc1, if_false]
        by_cases hc2 : st.coins < cost
        · simp only [hc2, if_true]
          exact ⟨h1, h2⟩
        · simp only [hc2, if_false]
          exact ledgerOk_extend st.txns st.coins (-cost) (st.coins - cost)
            ("spent_" ++ item) today h1 h2 (by omega)
  | bonus today =>
      simp only [stepCoinOp, claim_daily_bonus]
      by_cases hc : (st.txns.any fun t =>
          t.transaction_type = "earned_daily_bonus" ∧ t.created_day = today) = true
      · simp only [hc, if_true]
        exact ⟨h1, h2⟩
      · simp only [Bool.not_eq_true] at hc
        simp only [hc, Bool.false_eq_true, if_false]
        exact ledgerOk_extend st.txns st.coins 5 (st.coins + 5)
          "earned_daily_bonus" today h1 h2 rfl

theorem ledgerOk_foldl (r : Nat) (ops : List CoinOp) (st : AppState) (h : ledgerOk st) :
    ledgerOk (ops.foldl (stepCoinOp r) st) := by
  induction ops generalizing st with
  | nil => simpa using h
  | cons op rest ih =>
      simpa using ih (stepCoinOp r st op) (ledgerOk_step r st op h)

/-- C2: starting from the fresh-user state (coin balance 0, empty ledger,
any pre-existing sessions) and applying any sequence of the three
coin-affecting operations — activity completion, spend-coins, daily-bonus
claim, each leaving the state untouched when it rejects — the ledger
amounts sum to the current `coins` balance and every row's stored
`balance_after` equals the running prefix sum at its insertion point. -/
theorem spec_C2_ledger_invariant (requester : Nat) (sessions0 : List SessionT)
    (ops : List CoinOp) :
    ledgerOk (ops.foldl (stepCoinOp requester) (initAppState sessions0)) :=
  ledgerOk_foldl requester ops (initAppState sessions0) ⟨rfl, rfl⟩

/-- The session used to refute claim C1's status guard: it is owned by
user 7 but already `skipped`. -/
def c1SkippedSession : SessionT := ⟨1, 7, ⟨10, 10⟩, SessionStatus.skipped⟩

/-- A state holding only the skipped session, for user 7 with zero stats. -/
def c1State : AppState := ⟨[c1SkippedSession], [], 0, 0, 1, none, []⟩

/-- C1 counterexample: completing a session that is already `skipped` is
NOT rejected — the request succeeds and creates a completion record (and
pays out rewards again), because the serializer looks the session up only
by id and owner and never consults its status. -/
theorem completion_status_not_checked_cx :
    c1SkippedSession.status = SessionStatus.skipped ∧
    completeActivity c1State 7 1 0 =
      Except.ok
        ⟨[⟨1, 7, ⟨10, 10⟩, SessionStatus.completed⟩], [⟨1, 10, 10⟩], 10, 10, 1,
          some ⟨1, 1, some 0, 1, some 0⟩, [⟨"earned_activity", 10, 10, 0⟩]⟩ := by
  exact ⟨rfl, rfl⟩

/-- C1 (amended): the completion request is rejected — with no completion
row created and no user state changed, the error being raised before any
write — exactly when no session with the given id is owned by the
requester; whenever such a session exists, whatever its status, the
request succeeds and appends a completion record. -/
theorem spec_C1_completion_guard (st : AppState) (r sid : Nat) (today : Int) :
    ((∀ s ∈ st.sessions, ¬(s.sid = sid ∧ s.owner = r)) →
      completeActivity st r sid today = Except.error ReqErr.invalidSession) ∧
    (∀ s ∈ st.sessions, s.sid = sid → s.owner = r →
      ∃ st', completeActivity st r sid today = Except.ok st' ∧
        st'.completions.length = st.completions.length + 1) := by
  constructor
  · intro hnone
    have hfind : st.sessions.find? (fun s => s.sid = sid ∧ s.owner = r) = none := by
      rw [List.find?_eq_none]
      intro x hx
      simpa using hnone x hx
    simp only [completeActivity]
    rw [hfind]
  · intro s hs hsid hown
    have hsome : (st.sessions.find? (fun s => s.sid = sid ∧ s.owner = r)).isSome := by
      rw [List.find?_isSome]
      exact ⟨s, hs, by simp [hsid, hown]⟩
    obtain ⟨s', hs'⟩ := Option.isSome_iff_exists.mp hsome
    simp only [completeActivity]
    rw [hs']
    exact ⟨_, rfl, by simp⟩

/-- Witness for C1: with no sessions at all, the request errors. -/
theorem spec_C1_completion_guard_witness :
    completeActivity (initAppState []) 7 1 0 = Except.error ReqErr.invalidSession :=
  (spec_C1_completion_guard (initAppState []) 7 1 0).1
    (fun s hs => absurd hs (List.not_mem_nil s))

/-- C7: a spend request whose cost exceeds the balance is rejected (the
serializer raises before the view writes, so balance and ledger are
untouched); with a valid cost within the balance, exactly `cost` coins
are deducted and one ledger row with amount `-cost` and `balance_after`
equal to the new balance is appended. -/
theorem spec_C7_spend_coins (st : AppState) (item : String) (cost today : Int) :
    (st.coins < cost → (spend_coins st item cost today).isOk = false) ∧
    (1 ≤ cost → cost ≤ st.coins →
      spend_coins st item cost today = Except.ok
        { st with
          coins := st.coins - cost
          txns := st.txns ++ [⟨"spent_" ++ item, -cost, st.coins - cost, today⟩] }) := by
  constructor
  · intro hlt
    by_cases h1 : cost < 1
    · simp [spend_coins, h1, Except.isOk, Except.toBool]
    · simp [spend_coins, h1, hlt, Except.isOk, Except.toBool]
  · intro h1 h2
    have h1' : ¬ cost < 1 := by omega
    have h2' : ¬ st.coins < cost := by omega
    simp [spend_coins, h1', h2']

/-- Witness for C7: the spec's scenario — balance 100, cost 150 — is
rejected. -/
theorem spec_C7_spend_coins_witness :
    (spend_coins ⟨[], [], 0, 100, 1, none, []⟩ "hint" 150 0).isOk = false :=
  (spec_C7_spend_coins ⟨[], [], 0, 100, 1, none, []⟩ "hint" 150 0).1 (by decide)

/-- C10: when no `earned_daily_bonus` transaction exists yet for today's
date, the claim succeeds, adds exactly 5 coins and appends the single
bonus ledger row; when one exists, it is rejected with the state
untouched; and immediately after any successful claim, a second claim on
the same date is rejected — so the bonus is paid at most once per date. -/
theorem spec_C10_daily_bonus (st : AppState) (today : Int) :
    ((st.txns.any fun t =>
        t.transaction_type = "earned_daily_bonus" ∧ t.created_day = today) = false →
      claim_daily_bonus st today = Except.ok
        { st with
          coins := st.coins + 5
          txns := st.txns ++ [⟨"earned_daily_bonus", 5, st.coins + 5, today⟩] }) ∧
    ((st.txns.any fun t =>
        t.transaction_type = "earned_daily_bonus" ∧ t.created_day = today) = true →
      claim_daily_bonus st today = Except.error ReqErr.alreadyClaimed) ∧
    (∀ st', claim_daily_bonus st today = Except.ok st' →
      claim_daily_bonus st' today = Except.error ReqErr.alreadyClaimed) := by
  refine ⟨?_, ?_, ?_⟩
  · intro h
    simp only [claim_daily_bonus]
    rw [h]
    simp
  · intro h
    simp only [claim_daily_bonus]
    rw [h]
    simp
  · intro st' hok
    by_cases h : (st.txns.any fun t =>
        t.transaction_type = "earned_daily_bonus" ∧ t.created_day = today) = true
    · simp only [claim_daily_bonus] at hok
      rw [h] at hok
      simp at hok
    · simp only [Bool.not_eq_true] at h
      simp only [claim_daily_bonus] at hok
      rw [h] at hok
      simp only [Bool.false_eq_true, if_false, Except.ok.injEq] at hok
      subst hok
      have hany : (({ st with
          coins := st.coins + 5
          txns := st.txns ++ [⟨"earned_daily_bonus", 5, st.coins + 5, today⟩] } :
            AppState).txns.any fun t =>
          t.transaction_type = "earned_daily_bonus" ∧ t.created_day = today) = true := by
        simp [List.any_append]
      simp only [claim_daily_bonus]
      rw [hany]
      simp

/-- Witness for C10: the first claim on day 3 from a fresh user yields 5
coins and the bonus ledger row. -/
theorem spec_C10_daily_bonus_witness :
    claim_daily_bonus (initAppState []) 3 =
      Except.ok ⟨[], [], 0, 5, 1, none, [⟨"earned_daily_bonus", 5, 5, 3⟩]⟩ :=
  (spec_C10_daily_bonus (initAppState []) 3).1 rfl

theorem linkUpdate_uid (rid pid : Nat) (u : LinkUser) :
    (linkUpdate rid pid u).uid = u.uid := by
  unfold linkUpdate
  by_cases h1 : u.uid = rid
  · rw [if_pos h1]
  · rw [if_neg h1]
    by_cases h2 : u.uid = pid
    · rw [if_pos h2]
    · rw [if_neg h2]

theorem find?_map_uid (l : List LinkUser) (f : LinkUser → LinkUser) (n : Nat)
    (hf : ∀ u, (f u).uid = u.uid) :
    (l.map f).find? (fun u => u.uid = n) =
      Option.map f (l.find? fun u => u.uid = n) := by
  rw [List.find?_map]
  have hp : ((fun u : LinkUser => decide (u.uid = n)) ∘ f) =
      (fun u : LinkUser => decide (u.uid = n)) := by
    funext u
    simp [Function.comp, hf u]
  rw [hp]

theorem partner_link_ok_conditions (users : List LinkUser) (rid : Nat) (c : String)
    (us : List LinkUser) (h : partner_link users rid c = Except.ok us) :
    (users.any fun u => u.partner_invitation_code = some c) = true ∧
    (∀ A, users.find? (fun u => u.uid = rid) = some A → A.partner = none) ∧
    (∀ B, users.find? (fun u => u.partner_invitation_code = some (upperStr c)) = some B →
      B.uid ≠ rid ∧ B.partner = none) := by
  simp only [partner_link] at h
  split at h
  · exact absurd h (by simp)
  · rename_i hany
    split at h
    · exact absurd h (by simp)
    · rename_i requester hreq
      split at h
      · exact absurd h (by simp)
      · rename_i hrp
        split at h
        · exact absurd h (by simp)
        · rename_i p hp
          split at h
          · exact absurd h (by simp)
          · rename_i hpe
            split at h
            · exact absurd h (by simp)
            · rename_i hpp
              refine ⟨by simpa using hany, ?_, ?_⟩
              · intro A hA
                rw [hreq] at hA
                cases hA
                simpa using hrp
              · intro B hB
                rw [hp] at hB
                cases hB
                exact ⟨hpe, by simpa using hpp⟩

/-- C6: with distinct users A (the requester, unlinked) and B (the
unlinked holder of the upper-case invitation code, first under both its
code and its id), the link succeeds and writes `A.partner = B` and
`B.partner = A`; and the request errors — leaving every `partner` field
untouched, since the view's writes all come after its checks — when no
user holds the submitted code, the requester is already linked, the
code's holder is the requester, or the code's holder is already
linked. -/
theorem spec_C6_partner_link (users : List LinkUser) (rid : Nat) (c : String) :
    (∀ A B,
      users.find? (fun u => u.uid = rid) = some A →
      A.partner = none →
      (users.any fun u => u.partner_invitation_code = some c) = true →
      users.find? (fun u => u.partner_invitation_code = some (upperStr c)) = some B →
      users.find? (fun u => u.uid = B.uid) = some B →
      B.uid ≠ rid →
      B.partner = none →
      ∃ users', partner_link users rid c = Except.ok users' ∧
        users'.find? (fun u => u.uid = rid) = some { A with partner := some B.uid } ∧
        users'.find? (fun u => u.uid = B.uid) = some { B with partner := some rid }) ∧
    ((users.any fun u => u.partner_invitation_code = some c) = false →
      partner_link users rid c = Except.error LinkErr.invalidCode) ∧
    (∀ A, users.find? (fun u => u.uid = rid) = some A → A.partner.isSome →
      (partner_link users rid c).isOk = false) ∧
    (∀ B, users.find? (fun u => u.partner_invitation_code = some (upperStr c)) = some B →
      B.uid = rid → (partner_link users rid c).isOk = false) ∧
    (∀ B, users.find? (fun u => u.partner_invitation_code = some (upperStr c)) = some B →
      B.partner.isSome → (partner_link users rid c).isOk = false) := by
  refine ⟨?_, ?_, ?_, ?_, ?_⟩
  · intro A B hA hAp hany hB hBself hBne hBp
    have hAuid : A.uid = rid := by simpa using List.find?_some hA
    simp only [partner_link, hany, Bool.not_true, Bool.false_eq_true, if_false, hA, hB,
      hAp, Option.isSome_none]
    rw [if_neg hBne]
    simp only [hBp, Option.isSome_none, Bool.false_eq_true, if_false]
    refine ⟨_, rfl, ?_, ?_⟩
    · rw [find?_map_uid users (linkUpdate rid B.uid) rid (linkUpdate_uid rid B.uid), hA]
      simp [linkUpdate, hAuid]
    · rw [find?_map_uid users (linkUpdate rid B.uid) B.uid (linkUpdate_uid rid B.uid),
        hBself]
      simp [linkUpdate, hBne]
  · intro h
    simp only [partner_link]
    rw [h]
    simp
  · intro A hA hAp
    cases hres : partner_link users rid c with
    | error e => rfl
    | ok us =>
        obtain ⟨_, hreq, _⟩ := partner_link_ok_conditions users rid c us hres
        rw [hreq A hA] at hAp
        simp at hAp
  · intro B hB hBe
    cases hres : partner_link users rid c with
    | error e => rfl
    | ok us =>
        obtain ⟨_, _, hcode⟩ := partner_link_ok_conditions users rid c us hres
        exact absurd hBe (hcode B hB).1
  · intro B hB hBp
    cases hres : partner_link users rid c with
    | error e => rfl
    | ok us =>
        obtain ⟨_, _, hcode⟩ := partner_link_ok_conditions users rid c us hres
        rw [(hcode B hB).2] at hBp
        simp at hBp

/-- Witness for C6: user 1 links to user 2 via user 2's code. -/
theorem spec_C6_partner_link_witness :
    (partner_link [⟨1, none, some "AAAA1111"⟩, ⟨2, none, some "BBBB2222"⟩]
      1 "BBBB2222").isOk = true := by
  obtain ⟨us, hok, h1, h2⟩ :=
    (spec_C6_partner_link [⟨1, none, some "AAAA1111"⟩, ⟨2, none, some "BBBB2222"⟩]
        1 "BBBB2222").1
      ⟨1, none, some "AAAA1111"⟩ ⟨2, none, some "BBBB2222"⟩
      (by decide) rfl (by decide) (by decide) (by decide) (by decide) rfl
  rw [hok]
  rfl
